import Mathlib

attribute [local semireducible] Rat.mul Rat.add Rat.sub Rat.inv

/-!
Verification development for the trade-simulation core of a stock-trading
strategies program (`backtesting_engine.py` and `trading_strategies.py`).

Embedding choices:
* Prices, cash and all performance statistics are embedded as rationals
  (the source uses IEEE floats); `int(x)` on a nonnegative float is embedded
  as truncating rational-to-integer conversion.
* Timestamps are integers (day numbers); the source's `(exit - entry).days`
  becomes plain integer subtraction.
* A strategy is its `generate_signal` method: a function from the price-bar
  window (a list prefix) to a discrete signal.  `StrategyManager.get_strategy`
  returns `None` for an unregistered id, embedded as an `Option` argument.
* The Sharpe ratio mixes `sqrt 252` and a standard deviation into the result,
  which is irrational; no claim constrains it on the non-empty path, so the
  simulation is parameterised by an abstract `sharpeFn` used only there
  (the empty result pins it to 0, as in the source).
* The per-bar loop `for i in range(50, len(data))` is an explicit state
  machine: `stepBar` is one loop body, `simUpTo k` is the state after the
  first `k` iterations, `simulate` the state after the whole loop.
* Python lists accessed at `[-1]` are embedded with the most recent element
  at the head (`trades.append` / `trades[-1]` become cons / head); the
  equity curve, which is only ever appended to and read in order, keeps
  source order (append at the tail).
-/

namespace StockBacktest

/-- Trading signal: the `'BUY'`/`'SELL'`/`'HOLD'` strings of the source. -/
inductive Sig where
  | BUY
  | SELL
  | HOLD
deriving DecidableEq, Repr

/-- One price bar.  The engine core reads only the timestamp index and the
`Close` column, so only those two columns are embedded. -/
structure Bar where
  ts : Int
  close : ℚ
deriving DecidableEq, Repr

instance : Inhabited Bar := ⟨⟨0, 0⟩⟩

/-- A strategy as the simulator sees it: its `generate_signal` method,
mapping the prefix `data.iloc[:i+1]` to a signal. -/
abbrev Strategy := List Bar → Sig

/-- The `Trade` dataclass of `backtesting_engine.py`. -/
structure Trade where
  entryDate : Int
  exitDate : Option Int
  entryPrice : ℚ
  exitPrice : Option ℚ
  quantity : Int
  tradeType : Sig
  strategy : String
  symbol : String
  profitLoss : Option ℚ
  isOpen : Bool
deriving DecidableEq, Repr

/-- The `BacktestResult` dataclass. -/
structure BacktestResult where
  strategy_name : String
  symbol : String
  total_trades : ℕ
  winning_trades : ℕ
  losing_trades : ℕ
  win_rate : ℚ
  total_return : ℚ
  sharpe_ratio : ℚ
  max_drawdown : ℚ
  avg_trade_duration : ℚ
  profit_factor : ℚ
  total_fees : ℚ
  net_profit : ℚ
  signals_accuracy : ℚ
  trades : List Trade
  equity_curve : List ℚ
deriving DecidableEq, Repr

/-- The engine's constructor state: `initial_capital` and `commission`. -/
structure Engine where
  initialCapital : ℚ
  comm : ℚ
deriving DecidableEq, Repr

/-- Python's `int()` applied to a rational: truncation toward zero. -/
def pyInt (q : ℚ) : Int := q.num / (q.den : Int)

/-- `BacktestingEngine._create_empty_result`. -/
def emptyResult (strategyName symbol : String) : BacktestResult :=
  { strategy_name := strategyName
    symbol := symbol
    total_trades := 0
    winning_trades := 0
    losing_trades := 0
    win_rate := 0
    total_return := 0
    sharpe_ratio := 0
    max_drawdown := 0
    avg_trade_duration := 0
    profit_factor := 0
    total_fees := 0
    net_profit := 0
    signals_accuracy := 0
    trades := []
    equity_curve := [] }

/-- The realized profit/loss of a trade once set (`profit_loss`); closed
trades always carry a value, so the default is never read on them. -/
def pnl (t : Trade) : ℚ := t.profitLoss.getD 0

/-- `BacktestingEngine._close_position`: set exit fields, clear `is_open`,
and record gross PnL (long or short) minus round-trip commission. -/
def closeTrade (commission : ℚ) (t : Trade) (exitPrice : ℚ) (exitDate : Int) : Trade :=
  let gross : ℚ :=
    if t.tradeType = Sig.BUY then (exitPrice - t.entryPrice) * (t.quantity : ℚ)
    else (t.entryPrice - exitPrice) * (t.quantity : ℚ)
  { t with
      exitPrice := some exitPrice
      exitDate := some exitDate
      isOpen := false
      profitLoss := some (gross - (t.entryPrice + exitPrice) * (t.quantity : ℚ) * commission) }

/-- The mutable loop state of `run_backtest`: trade ledger (most recent
first), cash, position flag (0 flat, 1 long, -1 short), equity curve
(source order), and the two signal-accuracy counters. -/
structure SimState where
  trades : List Trade
  capital : ℚ
  position : Int
  equity : List ℚ
  sigCorrect : ℕ
  sigTotal : ℕ
deriving DecidableEq, Repr

/-- Loop-state initialisation of `run_backtest`. -/
def initState (e : Engine) : SimState :=
  { trades := [], capital := e.initialCapital, position := 0,
    equity := [], sigCorrect := 0, sigTotal := 0 }

/-- The signal-accuracy bookkeeping of one loop iteration (only invoked
when a next bar exists): BUY counts as correct when the next close is
higher, SELL when lower, HOLD unconditionally. -/
def accuracyStep (sig : Sig) (cur next : ℚ) (c tot : ℕ) : ℕ × ℕ :=
  match sig with
  | Sig.BUY => (if cur < next then c + 1 else c, tot + 1)
  | Sig.SELL => (if next < cur then c + 1 else c, tot + 1)
  | Sig.HOLD => (c + 1, tot + 1)

/-- The trade-execution block of one loop iteration of `run_backtest`
(lines 106-136 of the source): on BUY from a non-long position, close a
short if one exists, then open a long sized `int(capital*0.95/price)`
when that quantity is positive, debiting `quantity*price*(1+commission)`;
on SELL from a non-short position, close the long if one exists, crediting
only its realized PnL; on HOLD, no change. -/
def transition (e : Engine) (strategyName symbol : String) (sig : Sig)
    (price : ℚ) (date : Int) (st : SimState) : SimState :=
  match sig with
  | Sig.BUY =>
    if st.position ≤ 0 then
      let st1 :=
        if st.position = -1 then
          match st.trades with
          | t :: rest =>
            let ct := closeTrade e.comm t price date
            { st with trades := ct :: rest, capital := st.capital + pnl ct }
          | [] => st
        else st
      let qty : Int := pyInt (st1.capital * (95 / 100) / price)
      if 0 < qty then
        { st1 with
            trades :=
              { entryDate := date
                exitDate := none
                entryPrice := price
                exitPrice := none
                quantity := qty
                tradeType := Sig.BUY
                strategy := strategyName
                symbol := symbol
                profitLoss := none
                isOpen := true } :: st1.trades
            position := 1
            capital := st1.capital - (qty : ℚ) * price * (1 + e.comm) }
      else st1
    else st
  | Sig.SELL =>
    if 0 ≤ st.position then
      if st.position = 1 then
        match st.trades with
        | t :: rest =>
          let ct := closeTrade e.comm t price date
          { st with
              trades := ct :: rest
              capital := st.capital + pnl ct
              position := 0 }
        | [] => st
      else st
    else st
  | Sig.HOLD => st

/-- The mark-to-market equity recorded at the end of one loop iteration:
cash plus the unrealized PnL of an open long, when `position == 1 and
trades` holds. -/
def barEquity (price : ℚ) (st : SimState) : ℚ :=
  match st.trades with
  | t :: _ =>
    if st.position = 1 then st.capital + (price - t.entryPrice) * (t.quantity : ℚ)
    else st.capital
  | [] => st.capital

/-- One full iteration of the `for i in range(50, len(data))` loop:
signal generation on the prefix `data[0..i]`, accuracy bookkeeping
against the next close when one exists, the trade transition, and the
equity-curve append. -/
def stepBar (e : Engine) (strategyName symbol : String) (strat : Strategy)
    (data : List Bar) (i : ℕ) (st : SimState) : SimState :=
  let bar := (data[i]?).getD default
  let price := bar.close
  let sig := strat (data.take (i + 1))
  let counters :=
    if i + 1 < data.length then
      accuracyStep sig price ((data[i+1]?).getD default).close st.sigCorrect st.sigTotal
    else (st.sigCorrect, st.sigTotal)
  let st1 := transition e strategyName symbol sig price bar.ts st
  { st1 with
      sigCorrect := counters.1
      sigTotal := counters.2
      equity := st1.equity ++ [barEquity price st1] }

/-- The loop state after the first `k` iterations (iteration `k` works at
bar index `50 + k`; the guard mirrors the loop bound `i < len(data)`). -/
def simUpTo (e : Engine) (strategyName symbol : String) (strat : Strategy)
    (data : List Bar) : ℕ → SimState
  | 0 => initState e
  | k + 1 =>
    if 50 + k < data.length then
      stepBar e strategyName symbol strat data (50 + k)
        (simUpTo e strategyName symbol strat data k)
    else simUpTo e strategyName symbol strat data k

/-- The loop state after the whole `for i in range(50, len(data))` loop. -/
def simulate (e : Engine) (strategyName symbol : String) (strat : Strategy)
    (data : List Bar) : SimState :=
  simUpTo e strategyName symbol strat data (data.length - 50)

/-- The post-loop forced liquidation: if the most recent trade is still
open, close it at the final bar's price and date (without touching cash). -/
def forceClose (e : Engine) (data : List Bar) (st : SimState) : SimState :=
  match st.trades with
  | [] => st
  | t :: rest =>
    if t.isOpen then
      let lastBar := data.getLast?.getD default
      { st with trades := closeTrade e.comm t lastBar.close lastBar.ts :: rest }
    else st

/-- `[t for t in trades if not t.is_open]`. -/
def closedOf (trades : List Trade) : List Trade := trades.filter (fun t => !t.isOpen)

/-- `[t.profit_loss for t in closed_trades if t.profit_loss > 0]`. -/
def profitsOf (closed : List Trade) : List ℚ :=
  (closed.filter (fun t => decide (0 < pnl t))).map pnl

/-- `[t.profit_loss for t in closed_trades if t.profit_loss < 0]`. -/
def lossesOf (closed : List Trade) : List ℚ :=
  (closed.filter (fun t => decide (pnl t < 0))).map pnl

/-- `winning_trades / total_trades if total_trades > 0 else 0`. -/
def winRateOf (closed : List Trade) : ℚ :=
  if 0 < closed.length then ((profitsOf closed).length : ℚ) / (closed.length : ℚ) else 0

/-- `abs(total_profit / total_loss) if total_loss != 0 else 0`. -/
def profitFactorOf (closed : List Trade) : ℚ :=
  if (lossesOf closed).sum ≠ 0 then |(profitsOf closed).sum / (lossesOf closed).sum| else 0

/-- `signals_correct / total_signals if total_signals > 0 else 0`. -/
def accuracyOf (c tot : ℕ) : ℚ := if 0 < tot then (c : ℚ) / (tot : ℚ) else 0

/-- `equity_series.expanding().max()`, tail-worker carrying the running
maximum so far. -/
def runningMaxFrom (m : ℚ) : List ℚ → List ℚ
  | [] => []
  | h :: t => max m h :: runningMaxFrom (max m h) t

/-- `equity_series.expanding().max()`. -/
def runningMax : List ℚ → List ℚ
  | [] => []
  | h :: t => h :: runningMaxFrom h t

/-- `(equity_series - peak) / peak`, elementwise. -/
def drawdowns (equity : List ℚ) : List ℚ :=
  List.zipWith (fun eqv pk => (eqv - pk) / pk) equity (runningMax equity)

/-- `pandas.Series.min` on the lists this development applies it to
(0 as the junk value on an empty list, never reached from the engine). -/
def seriesMin : List ℚ → ℚ
  | [] => 0
  | h :: t => t.foldl min h

/-- `drawdown.min()` over the expanding-peak drawdown series. -/
def maxDrawdown (equity : List ℚ) : ℚ := seriesMin (drawdowns equity)

/-- Mean closed-trade duration in days (`0` when no trade has both dates). -/
def avgDurationOf (closed : List Trade) : ℚ :=
  let durations := closed.filterMap (fun t => t.exitDate.map (fun d => d - t.entryDate))
  if durations = [] then 0
  else (durations.map (fun d => (d : ℚ))).sum / (durations.length : ℚ)

/-- `sum((t.entry_price + (t.exit_price or 0)) * t.quantity * commission)`. -/
def totalFeesOf (commission : ℚ) (closed : List Trade) : ℚ :=
  (closed.map (fun t => (t.entryPrice + t.exitPrice.getD 0) * (t.quantity : ℚ) * commission)).sum

/-- `BacktestingEngine._calculate_metrics`: the canonical empty result when
the ledger is empty or holds no closed trade, otherwise the full statistics
record over the closed trades and the equity curve. -/
def calcMetrics (e : Engine) (sharpeFn : List ℚ → ℚ) (strategyName symbol : String)
    (trades : List Trade) (equity : List ℚ) (sigCorrect sigTotal : ℕ) : BacktestResult :=
  if trades = [] then emptyResult strategyName symbol
  else if (closedOf trades).length = 0 then emptyResult strategyName symbol
  else
    { strategy_name := strategyName
      symbol := symbol
      total_trades := (closedOf trades).length
      winning_trades := (profitsOf (closedOf trades)).length
      losing_trades := (lossesOf (closedOf trades)).length
      win_rate := winRateOf (closedOf trades)
      total_return := ((profitsOf (closedOf trades)).sum + (lossesOf (closedOf trades)).sum) /
        e.initialCapital
      sharpe_ratio := sharpeFn equity
      max_drawdown := maxDrawdown equity
      avg_trade_duration := avgDurationOf (closedOf trades)
      profit_factor := profitFactorOf (closedOf trades)
      total_fees := totalFeesOf e.comm (closedOf trades)
      net_profit := (profitsOf (closedOf trades)).sum + (lossesOf (closedOf trades)).sum
      signals_accuracy := accuracyOf sigCorrect sigTotal
      trades := closedOf trades
      equity_curve := equity }

/-- The successful-path body of `run_backtest`: run the loop, force-close a
dangling open trade, and reduce to metrics. -/
def simResult (e : Engine) (sharpeFn : List ℚ → ℚ) (strategyName symbol : String)
    (data : List Bar) (strat : Strategy) : BacktestResult :=
  let st := forceClose e data (simulate e strategyName symbol strat data)
  calcMetrics e sharpeFn strategyName symbol st.trades st.equity st.sigCorrect st.sigTotal

/-- `BacktestingEngine.run_backtest` on the already date-filtered series:
fewer than 50 bars or an unregistered strategy (`get_strategy` returned
`None`, embedded as the `Option` argument) yield the canonical empty
result; otherwise the simulation runs.  The source performs no validation
of the timestamps of `data`. -/
def runBacktest (e : Engine) (sharpeFn : List ℚ → ℚ) (strategyName symbol : String)
    (data : List Bar) (stratLookup : Option Strategy) : BacktestResult :=
  if data.length < 50 then emptyResult strategyName symbol
  else
    match stratLookup with
    | none => emptyResult strategyName symbol
    | some s => simResult e sharpeFn strategyName symbol data s

/-- Chronological order with unique timestamps: each bar's timestamp is
strictly below its successor's. -/
def chronological : List Bar → Bool
  | [] => true
  | [_] => true
  | a :: b :: t => decide (a.ts < b.ts) && chronological (b :: t)

/-- The observable state of `MLRandomForestStrategy` at prediction time:
the `is_trained` flag, and — for the fitted classifier together with its
feature pipeline, both opaque to the engine — the class-1 probability
`predict_proba(latest_features)[0][1]` and the `RSI` feature of the last
prepared row, each as a function of the input window. -/
structure MLState where
  isTrained : Bool
  proba : List Bar → ℚ
  rsi : List Bar → ℚ

/-- The probability that `MLRandomForestStrategy.generate_signal` compares
against its 0.6/0.4 thresholds: class-1 probability, boosted by `* 1.5`
capped at 1.0 when the RSI feature is below 30. -/
def mlComparedProb (m : MLState) (data : List Bar) : ℚ :=
  let p := m.proba data
  if m.rsi data < 30 then min 1 (p * (3 / 2)) else p

/-- `MLRandomForestStrategy.generate_signal` on the successful pipeline
path: HOLD while untrained, else threshold the (possibly boosted)
probability at `≥ 0.6` / `≤ 0.4`. -/
def mlGenerateSignal (m : MLState) (data : List Bar) : Sig :=
  if m.isTrained then
    let p := mlComparedProb m data
    if 3 / 5 ≤ p then Sig.BUY
    else if p ≤ 2 / 5 then Sig.SELL
    else Sig.HOLD
  else Sig.HOLD

/-- `MLRandomForestStrategy.get_signal_strength`: 0.5 while untrained,
otherwise the raw class-1 probability `predict_proba(...)[0][1]` — the
source applies no RSI boost here. -/
def mlGetSignalStrength (m : MLState) (data : List Bar) : ℚ :=
  if m.isTrained then m.proba data else 1 / 2

/-- A composite member as `CompositeStrategy` polls it: its
`generate_signal` and `get_signal_strength` methods. -/
structure Member where
  genSignal : List Bar → Sig
  strength : List Bar → ℚ

/-- The per-member poll of `CompositeStrategy.generate_signal`:
`zip(self.strategies, self.weights)` and, for each pair, the emitted
signal with the strength scaled by the weight. -/
def polledPairs (members : List Member) (weights : List ℚ) (data : List Bar) :
    List (Sig × ℚ) :=
  (members.zip weights).map (fun mw => (mw.1.genSignal data, mw.1.strength data * mw.2))

/-- The weighted strength accumulated in one signal bucket. -/
def bucketWeight (s : Sig) (pairs : List (Sig × ℚ)) : ℚ :=
  ((pairs.filter (fun p => decide (p.1 = s))).map Prod.snd).sum

/-- `buy_weight`: weighted strengths of the members that emitted BUY. -/
def compositeBuyW (members : List Member) (weights : List ℚ) (data : List Bar) : ℚ :=
  bucketWeight Sig.BUY (polledPairs members weights data)

/-- `sell_weight`: weighted strengths of the members that emitted SELL. -/
def compositeSellW (members : List Member) (weights : List ℚ) (data : List Bar) : ℚ :=
  bucketWeight Sig.SELL (polledPairs members weights data)

/-- `hold_weight`: weighted strengths of the members that emitted HOLD. -/
def compositeHoldW (members : List Member) (weights : List ℚ) (data : List Bar) : ℚ :=
  bucketWeight Sig.HOLD (polledPairs members weights data)

/-- `total_weight = buy_weight + sell_weight + hold_weight`. -/
def compositeTotalW (members : List Member) (weights : List ℚ) (data : List Bar) : ℚ :=
  compositeBuyW members weights data + compositeSellW members weights data +
    compositeHoldW members weights data

/-- `CompositeStrategy.generate_signal`: poll every member, bucket the
weighted strengths by emitted signal, HOLD when the total weight is zero,
else BUY/SELL when that bucket holds strictly more than 0.6 of the total,
HOLD otherwise. -/
def compositeGenerateSignal (members : List Member) (weights : List ℚ)
    (data : List Bar) : Sig :=
  if compositeTotalW members weights data = 0 then Sig.HOLD
  else if 3 / 5 <
      compositeBuyW members weights data / compositeTotalW members weights data then
    Sig.BUY
  else if 3 / 5 <
      compositeSellW members weights data / compositeTotalW members weights data then
    Sig.SELL
  else Sig.HOLD

/-! Concrete fixtures used by counterexamples and witnesses. -/

/-- `n` bars at one price on consecutive days. -/
def mkBars (n : ℕ) (price : ℚ) : List Bar :=
  (List.range n).map (fun i => ⟨(i : Int), price⟩)

/-- `n` bars with strictly rising closes on consecutive days. -/
def risingBars (n : ℕ) : List Bar :=
  (List.range n).map (fun i => ⟨(i : Int), 10 + (i : ℚ)⟩)

/-- 51 bars sharing one timestamp: a duplicated, non-chronological series. -/
def dupBars : List Bar := List.replicate 51 ⟨0, 10⟩

/-- The engine under its constructor defaults
(`initial_capital=10000.0`, `commission=0.001`). -/
def engineDflt : Engine := ⟨10000, 1 / 1000⟩

/-- A generator that always holds (e.g. the untrained classifier). -/
def constHold : Strategy := fun _ => Sig.HOLD

/-- A generator that always buys. -/
def constBuy : Strategy := fun _ => Sig.BUY

/-- A concrete stand-in for the abstract Sharpe computation. -/
def sharpeZero : List ℚ → ℚ := fun _ => 0

/-- Buys once the window has grown past 51 bars, holds before. -/
def buyAt52 : Strategy := fun w => if 52 ≤ w.length then Sig.BUY else Sig.HOLD

/-- Buys on the 51-bar window, sells afterwards. -/
def buyThenSell : Strategy := fun w => if w.length ≤ 51 then Sig.BUY else Sig.SELL

/-- A concrete open long trade. -/
def tradeEx : Trade :=
  { entryDate := 0, exitDate := none, entryPrice := 10, exitPrice := none,
    quantity := 950, tradeType := Sig.BUY, strategy := "s", symbol := "A",
    profitLoss := none, isOpen := true }

/-- The trade `buyThenSell` opens on `risingBars 52` at bar 50
(close 60, `int(10000*0.95/60) = 158` shares). -/
def tradeOpened : Trade :=
  { entryDate := 50, exitDate := none, entryPrice := 60, exitPrice := none,
    quantity := 158, tradeType := Sig.BUY, strategy := "s", symbol := "A",
    profitLoss := none, isOpen := true }

/-- A trained classifier state whose raw class-1 probability is 0.5 while
the RSI feature reads oversold (20). -/
def mlEx : MLState := ⟨true, fun _ => 1 / 2, fun _ => 20⟩

/-- A trained classifier state with probability 0.7 and a neutral RSI. -/
def mlNeutral : MLState := ⟨true, fun _ => 7 / 10, fun _ => 50⟩

/-- A member that always answers BUY at strength 1. -/
def buyMember : Member := ⟨fun _ => Sig.BUY, fun _ => 1⟩

/-- A member that always answers HOLD at strength 1. -/
def holdMember : Member := ⟨fun _ => Sig.HOLD, fun _ => 1⟩

/-- Scenario C of the spec: three equally weighted members, two of which
buy at strength 1 while one holds at strength 1. -/
def scenarioMembers : List Member := [buyMember, buyMember, holdMember]

/-- The run invariant of the simulation loop: the position flag stays in
{flat, long}, the accuracy counters satisfy `correct ≤ total`, and while
flat the most recent equity point equals the cash balance. -/
def Inv (st : SimState) : Prop :=
  (st.position = 0 ∨ st.position = 1) ∧
  st.sigCorrect ≤ st.sigTotal ∧
  (st.position = 0 → st.equity ≠ [] → st.equity.getLast? = some st.capital)

/-! ## Structural lemmas about one loop iteration -/

/-- `transition` never touches the equity curve. -/
theorem transition_equity (e : Engine) (n s : String) (sig : Sig) (price : ℚ)
    (date : Int) (st : SimState) :
    (transition e n s sig price date st).equity = st.equity := by
  cases sig <;> simp only [transition] <;> repeat' (first | rfl | split)

/-- `transition` keeps the position flag in {flat, long}. -/
theorem transition_position (e : Engine) (n s : String) (sig : Sig) (price : ℚ)
    (date : Int) (st : SimState) (h : st.position = 0 ∨ st.position = 1) :
    (transition e n s sig price date st).position = 0 ∨
      (transition e n s sig price date st).position = 1 := by
  cases sig <;> simp only [transition] <;> repeat' (first | exact h | simp | split)

theorem getLast?_append_singleton (l : List ℚ) (a : ℚ) :
    (l ++ [a]).getLast? = some a := by
  simp

/-- While not long, the recorded equity is exactly the cash balance. -/
theorem barEquity_flat (price : ℚ) (st : SimState) (h : st.position = 0) :
    barEquity price st = st.capital := by
  cases htr : st.trades <;> simp [barEquity, htr, h]

theorem accuracyStep_le (sig : Sig) (cur next : ℚ) (c tot : ℕ) (h : c ≤ tot) :
    (accuracyStep sig cur next c tot).1 ≤ (accuracyStep sig cur next c tot).2 := by
  cases sig <;> simp only [accuracyStep] <;> (try split) <;> omega

theorem stepBar_position (e : Engine) (n s : String) (strat : Strategy) (data : List Bar)
    (i : ℕ) (st : SimState) :
    (stepBar e n s strat data i st).position =
      (transition e n s (strat (data.take (i + 1))) ((data[i]?).getD default).close
        ((data[i]?).getD default).ts st).position := rfl

theorem stepBar_capital (e : Engine) (n s : String) (strat : Strategy) (data : List Bar)
    (i : ℕ) (st : SimState) :
    (stepBar e n s strat data i st).capital =
      (transition e n s (strat (data.take (i + 1))) ((data[i]?).getD default).close
        ((data[i]?).getD default).ts st).capital := rfl

theorem stepBar_trades (e : Engine) (n s : String) (strat : Strategy) (data : List Bar)
    (i : ℕ) (st : SimState) :
    (stepBar e n s strat data i st).trades =
      (transition e n s (strat (data.take (i + 1))) ((data[i]?).getD default).close
        ((data[i]?).getD default).ts st).trades := rfl

theorem stepBar_equity (e : Engine) (n s : String) (strat : Strategy) (data : List Bar)
    (i : ℕ) (st : SimState) :
    (stepBar e n s strat data i st).equity =
      st.equity ++ [barEquity ((data[i]?).getD default).close
        (transition e n s (strat (data.take (i + 1))) ((data[i]?).getD default).close
          ((data[i]?).getD default).ts st)] := by
  show (transition e n s (strat (data.take (i + 1))) _ _ st).equity ++ _ = _
  rw [transition_equity]

theorem stepBar_counters (e : Engine) (n s : String) (strat : Strategy) (data : List Bar)
    (i : ℕ) (st : SimState) :
    ((stepBar e n s strat data i st).sigCorrect, (stepBar e n s strat data i st).sigTotal) =
      if i + 1 < data.length then
        accuracyStep (strat (data.take (i + 1))) ((data[i]?).getD default).close
          ((data[i+1]?).getD default).close st.sigCorrect st.sigTotal
      else (st.sigCorrect, st.sigTotal) := rfl

/-! ## The run invariant -/

/-- One loop iteration preserves the run invariant. -/
theorem inv_stepBar (e : Engine) (n s : String) (strat : Strategy) (data : List Bar)
    (i : ℕ) (st : SimState) (h : Inv st) : Inv (stepBar e n s strat data i st) := by
  obtain ⟨hpos, hacc, _⟩ := h
  refine ⟨?_, ?_, ?_⟩
  · rw [stepBar_position]; exact transition_position _ _ _ _ _ _ _ hpos
  · have hc := stepBar_counters e n s strat data i st
    rcases hlt : decide (i + 1 < data.length) with _ | _
    · simp only [if_neg (of_decide_eq_false hlt)] at hc
      have h1 : (stepBar e n s strat data i st).sigCorrect = st.sigCorrect :=
        congrArg Prod.fst hc
      have h2 : (stepBar e n s strat data i st).sigTotal = st.sigTotal :=
        congrArg Prod.snd hc
      rw [h1, h2]; exact hacc
    · have hlt' := of_decide_eq_true hlt
      simp only [if_pos hlt'] at hc
      have h1 := congrArg Prod.fst hc
      have h2 := congrArg Prod.snd hc
      simp only at h1 h2
      rw [h1, h2]; exact accuracyStep_le _ _ _ _ _ hacc
  · intro h0 _
    rw [stepBar_equity, getLast?_append_singleton]
    rw [stepBar_position] at h0
    rw [barEquity_flat _ _ h0, stepBar_capital]

/-- The run invariant holds after any number of loop iterations. -/
theorem inv_simUpTo (e : Engine) (n s : String) (strat : Strategy) (data : List Bar) :
    ∀ k, Inv (simUpTo e n s strat data k) := by
  intro k
  induction k with
  | zero => exact ⟨Or.inl rfl, le_refl 0, fun _ hne => absurd rfl hne⟩
  | succ k ih =>
    rw [simUpTo]
    split
    · exact inv_stepBar _ _ _ _ _ _ _ ih
    · exact ih

/-! ## Equity-curve length and the forced liquidation -/

/-- Each executed iteration appends exactly one equity point. -/
theorem equity_length_simUpTo (e : Engine) (n s : String) (strat : Strategy)
    (data : List Bar) : ∀ k, (simUpTo e n s strat data k).equity.length =
      min k (data.length - 50) := by
  intro k
  induction k with
  | zero => simp [simUpTo, initState]
  | succ k ih =>
    rw [simUpTo]
    split
    · rw [stepBar_equity, List.length_append, ih]
      simp only [List.length_singleton]
      omega
    · rw [ih]; omega

/-- `simulate` records one equity point per simulated bar. -/
theorem equity_length_simulate (e : Engine) (n s : String) (strat : Strategy)
    (data : List Bar) : (simulate e n s strat data).equity.length = data.length - 50 := by
  rw [simulate, equity_length_simUpTo]; omega

theorem forceClose_equity (e : Engine) (data : List Bar) (st : SimState) :
    (forceClose e data st).equity = st.equity := by
  unfold forceClose; repeat' (first | rfl | split)

theorem forceClose_sigCorrect (e : Engine) (data : List Bar) (st : SimState) :
    (forceClose e data st).sigCorrect = st.sigCorrect := by
  unfold forceClose; repeat' (first | rfl | split)

theorem forceClose_sigTotal (e : Engine) (data : List Bar) (st : SimState) :
    (forceClose e data st).sigTotal = st.sigTotal := by
  unfold forceClose; repeat' (first | rfl | split)

/-- After the forced liquidation a nonempty ledger starts with a closed trade. -/
theorem forceClose_head_closed (e : Engine) (data : List Bar) (st : SimState)
    (h : st.trades ≠ []) :
    ∃ t rest, (forceClose e data st).trades = t :: rest ∧ t.isOpen = false := by
  cases htr : st.trades with
  | nil => exact absurd htr h
  | cons t rest =>
    refine ⟨if t.isOpen then
        closeTrade e.comm t (data.getLast?.getD default).close (data.getLast?.getD default).ts
      else t, rest, ?_, ?_⟩
    · unfold forceClose
      rw [htr]
      by_cases ho : t.isOpen <;> simp [ho, htr]
    · by_cases ho : t.isOpen <;> simp [ho, closeTrade]

/-- A ledger headed by a closed trade yields a nonempty closed-trade list. -/
theorem closedOf_cons_closed (t : Trade) (rest : List Trade) (h : t.isOpen = false) :
    (closedOf (t :: rest)).length ≠ 0 := by
  simp [closedOf, h]

/-! ## Bounds on the reported statistics -/

theorem foldl_min_le_init (l : List ℚ) : ∀ a : ℚ, l.foldl min a ≤ a := by
  induction l with
  | nil => intro a; exact le_refl a
  | cons x xs ih =>
    intro a
    calc (x :: xs).foldl min a = xs.foldl min (min a x) := rfl
    _ ≤ min a x := ih (min a x)
    _ ≤ a := min_le_left a x

/-- The first drawdown entry is zero, so the reported minimum is nonpositive. -/
theorem maxDrawdown_nonpos (equity : List ℚ) : maxDrawdown equity ≤ 0 := by
  cases equity with
  | nil => exact le_refl 0
  | cons h t =>
    have hd : drawdowns (h :: t) =
        (h - h) / h :: List.zipWith (fun eqv pk => (eqv - pk) / pk) t (runningMaxFrom h t) := by
      simp [drawdowns, runningMax]
    rw [maxDrawdown, hd, sub_self, zero_div, seriesMin]
    exact foldl_min_le_init _ 0

theorem winRateOf_nonneg (closed : List Trade) : 0 ≤ winRateOf closed := by
  unfold winRateOf
  split
  · positivity
  · exact le_refl 0

theorem winRateOf_le_one (closed : List Trade) : winRateOf closed ≤ 1 := by
  unfold winRateOf
  split
  · next hpos =>
    rw [div_le_one (by exact_mod_cast hpos)]
    have : (profitsOf closed).length ≤ closed.length := by
      rw [profitsOf, List.length_map]
      exact List.length_filter_le _ _
    exact_mod_cast this
  · exact zero_le_one

theorem accuracyOf_nonneg (c tot : ℕ) : 0 ≤ accuracyOf c tot := by
  unfold accuracyOf
  split
  · positivity
  · exact le_refl 0

theorem accuracyOf_le_one (c tot : ℕ) (h : c ≤ tot) : accuracyOf c tot ≤ 1 := by
  unfold accuracyOf
  split
  · next hpos =>
    rw [div_le_one (by exact_mod_cast hpos)]
    exact_mod_cast h
  · exact zero_le_one

theorem profitFactorOf_nonneg (closed : List Trade) : 0 ≤ profitFactorOf closed := by
  unfold profitFactorOf
  split
  · exact abs_nonneg _
  · exact le_refl 0

theorem profitFactorOf_eq_zero (closed : List Trade) (h : (lossesOf closed).sum = 0) :
    profitFactorOf closed = 0 := by
  simp [profitFactorOf, h]

/-! ## Opening and closing transitions in closed form -/

/-- The BUY transition from a flat position with a positive computed
quantity: push the new trade, go long, and debit the full notional plus
commission. -/
theorem transition_buy_open (e : Engine) (n s : String) (price : ℚ) (date : Int)
    (st : SimState) (hpos : st.position = 0)
    (hqty : 0 < pyInt (st.capital * (95 / 100) / price)) :
    transition e n s Sig.BUY price date st =
      { st with
          trades :=
            { entryDate := date, exitDate := none, entryPrice := price,
              exitPrice := none, quantity := pyInt (st.capital * (95 / 100) / price),
              tradeType := Sig.BUY, strategy := n, symbol := s,
              profitLoss := none, isOpen := true } :: st.trades
          position := 1
          capital := st.capital -
            (pyInt (st.capital * (95 / 100) / price) : ℚ) * price * (1 + e.comm) } := by
  simp [transition, hpos, hqty]

/-- The SELL transition from a long position credits exactly the realized
PnL of the closed trade — entry cost and sale proceeds never return. -/
theorem transition_sell_close (e : Engine) (n s : String) (price : ℚ) (date : Int)
    (st : SimState) (t : Trade) (rest : List Trade) (hpos : st.position = 1)
    (htr : st.trades = t :: rest) (hty : t.tradeType = Sig.BUY) :
    (transition e n s Sig.SELL price date st).capital =
      st.capital + ((price - t.entryPrice) * (t.quantity : ℚ) -
        (t.entryPrice + price) * (t.quantity : ℚ) * e.comm) := by
  simp [transition, hpos, htr, pnl, closeTrade, hty]

/-! ## The claims -/

/-- C1 (amended): a run with at least 50 bars and a registered strategy in
which the simulation opens at least one trade reports an equity curve of
exactly `len(bars) - 50` points.  (A run that never opens a trade instead
returns the canonical empty result with an empty equity curve.) -/
theorem claim1_equity_length (e : Engine) (sharpeFn : List ℚ → ℚ) (n s : String)
    (data : List Bar) (strat : Strategy) (h50 : 50 ≤ data.length)
    (htr : (simulate e n s strat data).trades ≠ []) :
    (runBacktest e sharpeFn n s data (some strat)).equity_curve.length =
      data.length - 50 := by
  have hnl : ¬ data.length < 50 := by omega
  simp only [runBacktest, if_neg hnl, simResult]
  obtain ⟨t, rest, hts, hcl⟩ := forceClose_head_closed e data _ htr
  have h1 : (forceClose e data (simulate e n s strat data)).trades ≠ [] := by
    rw [hts]; exact List.cons_ne_nil _ _
  have h2 : (closedOf (forceClose e data (simulate e n s strat data)).trades).length ≠ 0 := by
    rw [hts]; exact closedOf_cons_closed t rest hcl
  simp only [calcMetrics, if_neg h1, if_neg h2]
  rw [forceClose_equity]
  exact equity_length_simulate e n s strat data

/-- C1 counterexample: 51 bars with a registered always-HOLD generator (the
behavior of e.g. the untrained classifier): the run is "successful" in the
claim's sense, yet the equity curve is empty rather than of length 1. -/
theorem claim1_counterexample :
    50 ≤ (mkBars 51 10).length ∧
      ¬ (runBacktest engineDflt sharpeZero "s" "A" (mkBars 51 10)
          (some constHold)).equity_curve.length = (mkBars 51 10).length - 50 :=
  ⟨by decide, by decide⟩

theorem claim1_witness :
    50 ≤ (mkBars 51 10).length ∧
      (simulate engineDflt "s" "A" constBuy (mkBars 51 10)).trades ≠ [] ∧
      (runBacktest engineDflt sharpeZero "s" "A" (mkBars 51 10)
        (some constBuy)).equity_curve.length = (mkBars 51 10).length - 50 :=
  ⟨by decide, by decide, claim1_equity_length _ _ _ _ _ _ (by decide) (by decide)⟩

/-- C2 (amended): `run_backtest` performs no timestamp validation at all —
on a series whose timestamps are unsorted or duplicated it proceeds to the
simulation exactly as on a well-formed series (only the length and
strategy-lookup checks gate the simulation). -/
theorem claim2_no_validation (e : Engine) (sharpeFn : List ℚ → ℚ) (n s : String)
    (data : List Bar) (strat : Strategy) (_hbad : chronological data = false)
    (h50 : 50 ≤ data.length) :
    runBacktest e sharpeFn n s data (some strat) =
      simResult e sharpeFn n s data strat := by
  have hnl : ¬ data.length < 50 := by omega
  simp only [runBacktest, if_neg hnl]

/-- C2 counterexample: 51 bars all carrying the same timestamp are simulated
silently — the call returns a normal one-trade result, not a validation
error and not the empty result. -/
theorem claim2_counterexample :
    chronological dupBars = false ∧
      (runBacktest engineDflt sharpeZero "s" "A" dupBars (some constBuy)).total_trades = 1 ∧
      runBacktest engineDflt sharpeZero "s" "A" dupBars (some constBuy) ≠
        emptyResult "s" "A" :=
  ⟨by decide, by decide, by decide⟩

theorem claim2_witness :
    runBacktest engineDflt sharpeZero "s" "A" dupBars (some constBuy) =
      simResult engineDflt sharpeZero "s" "A" dupBars constBuy :=
  claim2_no_validation _ _ _ _ _ _ (by decide) (by decide)

/-- C3 (amended): the reported strength of the trained classifier is the
raw class-1 probability; it coincides with the probability that
`generate_signal` thresholds exactly when no oversold boost applies. -/
theorem claim3_strength_raw (m : MLState) (data : List Bar) (h : m.isTrained = true) :
    mlGetSignalStrength m data = m.proba data ∧
      (¬ m.rsi data < 30 → mlGetSignalStrength m data = mlComparedProb m data) := by
  constructor
  · simp [mlGetSignalStrength, h]
  · intro hr
    simp [mlGetSignalStrength, mlComparedProb, h, hr]

theorem claim3_witness :
    mlGetSignalStrength mlNeutral [] = mlNeutral.proba [] ∧
      mlGetSignalStrength mlNeutral [] = mlComparedProb mlNeutral [] :=
  ⟨(claim3_strength_raw mlNeutral [] rfl).1,
   (claim3_strength_raw mlNeutral [] rfl).2 (by norm_num [mlNeutral])⟩

/-- C3 counterexample: a trained state with probability 0.5 and RSI 20:
`generate_signal` thresholds the boosted 0.75 (and answers BUY), while
`get_signal_strength` reports the unboosted 0.5. -/
theorem claim3_counterexample :
    mlEx.isTrained = true ∧
      mlGetSignalStrength mlEx [] ≠ mlComparedProb mlEx [] ∧
      mlGenerateSignal mlEx [] = Sig.BUY ∧
      mlComparedProb mlEx [] = 3 / 4 ∧
      mlGetSignalStrength mlEx [] = 1 / 2 := by
  refine ⟨rfl, ?_, ?_, ?_, ?_⟩ <;> decide

/-- C4: the composite decision rule over arbitrary members and weights:
HOLD at zero total weight, BUY exactly when the BUY bucket exceeds 0.6 of
the total, else SELL exactly when the SELL bucket does, else HOLD. -/
theorem claim4_composite_rule (members : List Member) (weights : List ℚ)
    (data : List Bar) :
    (compositeTotalW members weights data = 0 →
        compositeGenerateSignal members weights data = Sig.HOLD) ∧
      (compositeGenerateSignal members weights data = Sig.BUY ↔
        compositeTotalW members weights data ≠ 0 ∧
          3 / 5 < compositeBuyW members weights data / compositeTotalW members weights data) ∧
      (compositeGenerateSignal members weights data = Sig.SELL ↔
        compositeTotalW members weights data ≠ 0 ∧
          ¬ 3 / 5 <
            compositeBuyW members weights data / compositeTotalW members weights data ∧
          3 / 5 < compositeSellW members weights data / compositeTotalW members weights data) := by
  by_cases h0 : compositeTotalW members weights data = 0
  · refine ⟨fun _ => ?_, ?_, ?_⟩ <;> simp [compositeGenerateSignal, h0]
  · by_cases hb : 3 / 5 <
        compositeBuyW members weights data / compositeTotalW members weights data
    · refine ⟨fun hc => absurd hc h0, ?_, ?_⟩ <;>
        simp [compositeGenerateSignal, h0, hb]
    · by_cases hs : 3 / 5 <
          compositeSellW members weights data / compositeTotalW members weights data
      · refine ⟨fun hc => absurd hc h0, ?_, ?_⟩ <;>
          simp [compositeGenerateSignal, h0, hb, hs]
      · refine ⟨fun hc => absurd hc h0, ?_, ?_⟩ <;>
          simp [compositeGenerateSignal, h0, hb, hs]

/-- Scenario C of the spec: two BUY members and one HOLD member, equal
weights and strengths, give `buy_ratio = 2/3 > 0.6`, hence BUY. -/
theorem claim4_witness :
    compositeGenerateSignal scenarioMembers [1, 1, 1] [] = Sig.BUY :=
  (claim4_composite_rule scenarioMembers [1, 1, 1] []).2.1.mpr ⟨by decide, by decide⟩

/-- C5: a run with fewer than 50 bars after filtering, or with an
unregistered strategy id, returns the canonical all-zero empty result
(the model is a total function, so no exception reaches the caller). -/
theorem claim5_empty_result (e : Engine) (sharpeFn : List ℚ → ℚ) (n s : String)
    (data : List Bar) (stratLookup : Option Strategy)
    (h : data.length < 50 ∨ stratLookup = none) :
    runBacktest e sharpeFn n s data stratLookup = emptyResult n s := by
  rcases h with h | h
  · simp [runBacktest, h]
  · subst h
    unfold runBacktest
    split <;> rfl

theorem claim5_witness :
    runBacktest engineDflt sharpeZero "rsi" "AAPL" (mkBars 10 10) (some constHold) =
        emptyResult "rsi" "AAPL" ∧
      runBacktest engineDflt sharpeZero "nope" "AAPL" (mkBars 60 10) none =
        emptyResult "nope" "AAPL" :=
  ⟨claim5_empty_result _ _ _ _ _ _ (Or.inl (by decide)),
   claim5_empty_result _ _ _ _ _ _ (Or.inr rfl)⟩

/-- C6: closing an open long trade realizes
`(exit - entry) * quantity - (entry + exit) * quantity * commission`,
clears the open flag and sets the exit fields. -/
theorem claim6_close_long (commission : ℚ) (t : Trade) (exitPrice : ℚ) (exitDate : Int)
    (_hOpen : t.isOpen = true) (hLong : t.tradeType = Sig.BUY) :
    closeTrade commission t exitPrice exitDate =
      { t with
          exitPrice := some exitPrice
          exitDate := some exitDate
          isOpen := false
          profitLoss := some ((exitPrice - t.entryPrice) * (t.quantity : ℚ) -
            (t.entryPrice + exitPrice) * (t.quantity : ℚ) * commission) } := by
  simp [closeTrade, hLong]

theorem claim6_witness :
    closeTrade (1 / 1000) tradeEx 20 5 =
      { tradeEx with
          exitPrice := some 20
          exitDate := some 5
          isOpen := false
          profitLoss := some ((20 - tradeEx.entryPrice) * (tradeEx.quantity : ℚ) -
            (tradeEx.entryPrice + 20) * (tradeEx.quantity : ℚ) * (1 / 1000)) } :=
  claim6_close_long (1 / 1000) tradeEx 20 5 rfl rfl

/-- C7: at every point of every run the position flag is flat or long,
never short, so the close-short arm of the BUY transition is dead. -/
theorem claim7_never_short (e : Engine) (n s : String) (strat : Strategy)
    (data : List Bar) (k : ℕ) :
    (simUpTo e n s strat data k).position = 0 ∨
      (simUpTo e n s strat data k).position = 1 :=
  (inv_simUpTo e n s strat data k).1

/-- C8: every result `run_backtest` can return satisfies the documented
metric ranges. -/
theorem claim8_metric_bounds (e : Engine) (sharpeFn : List ℚ → ℚ) (n s : String)
    (data : List Bar) (stratLookup : Option Strategy) :
    0 ≤ (runBacktest e sharpeFn n s data stratLookup).win_rate ∧
      (runBacktest e sharpeFn n s data stratLookup).win_rate ≤ 1 ∧
      0 ≤ (runBacktest e sharpeFn n s data stratLookup).signals_accuracy ∧
      (runBacktest e sharpeFn n s data stratLookup).signals_accuracy ≤ 1 ∧
      0 ≤ (runBacktest e sharpeFn n s data stratLookup).profit_factor ∧
      (runBacktest e sharpeFn n s data stratLookup).max_drawdown ≤ 0 := by
  have hempty : ∀ a b : String, 0 ≤ (emptyResult a b).win_rate ∧
      (emptyResult a b).win_rate ≤ 1 ∧
      0 ≤ (emptyResult a b).signals_accuracy ∧ (emptyResult a b).signals_accuracy ≤ 1 ∧
      0 ≤ (emptyResult a b).profit_factor ∧ (emptyResult a b).max_drawdown ≤ 0 :=
    fun _ _ => ⟨le_refl 0, zero_le_one, le_refl 0, zero_le_one, le_refl 0, le_refl 0⟩
  by_cases h50 : data.length < 50
  · simp only [runBacktest, if_pos h50]; exact hempty n s
  · cases stratLookup with
    | none => simp only [runBacktest, if_neg h50]; exact hempty n s
    | some strat =>
      simp only [runBacktest, if_neg h50, simResult]
      by_cases h1 : (forceClose e data (simulate e n s strat data)).trades = []
      · simp only [calcMetrics, if_pos h1]; exact hempty n s
      · by_cases h2 :
          (closedOf (forceClose e data (simulate e n s strat data)).trades).length = 0
        · simp only [calcMetrics, if_neg h1, if_pos h2]; exact hempty n s
        · simp only [calcMetrics, if_neg h1, if_neg h2]
          refine ⟨winRateOf_nonneg _, winRateOf_le_one _, accuracyOf_nonneg _ _, ?_,
            profitFactorOf_nonneg _, maxDrawdown_nonpos _⟩
          apply accuracyOf_le_one
          rw [forceClose_sigCorrect, forceClose_sigTotal]
          exact (inv_simUpTo e n s strat data _).2.1

/-- C9: a run whose ledger shows no losing trade reports profit factor 0. -/
theorem claim9_profit_factor_zero (e : Engine) (sharpeFn : List ℚ → ℚ) (n s : String)
    (data : List Bar) (stratLookup : Option Strategy)
    (h : (lossesOf (runBacktest e sharpeFn n s data stratLookup).trades).sum = 0) :
    (runBacktest e sharpeFn n s data stratLookup).profit_factor = 0 := by
  by_cases h50 : data.length < 50
  · simp [runBacktest, h50, emptyResult]
  · cases stratLookup with
    | none => simp [runBacktest, h50, emptyResult]
    | some strat =>
      simp only [runBacktest, if_neg h50, simResult] at h ⊢
      by_cases h1 : (forceClose e data (simulate e n s strat data)).trades = []
      · simp [calcMetrics, h1, emptyResult]
      · by_cases h2 :
          (closedOf (forceClose e data (simulate e n s strat data)).trades).length = 0
        · simp [calcMetrics, h1, h2, emptyResult]
        · simp only [calcMetrics, if_neg h1, if_neg h2] at h ⊢
          exact profitFactorOf_eq_zero _ h

theorem claim9_witness :
    (lossesOf (runBacktest engineDflt sharpeZero "s" "A" (risingBars 52)
        (some constBuy)).trades).sum = 0 ∧
      (runBacktest engineDflt sharpeZero "s" "A" (risingBars 52)
        (some constBuy)).profit_factor = 0 :=
  ⟨by decide, claim9_profit_factor_zero _ _ _ _ _ _ (by decide)⟩

/-- C10: the cash-accounting asymmetry, at every reachable loop state.
Opening a long at bar `50 + k` debits the full notional
`quantity * price * (1 + commission)`; the equity point recorded at that
bar equals the debited cash (the previous point, while flat, equalled the
undebited cash, so the curve drops by the full entry notional); and a
later SELL close credits back only the realized PnL — never the sale
proceeds `quantity * exit_price`. -/
theorem claim10_accounting (e : Engine) (n s : String) (strat : Strategy)
    (data : List Bar) (k : ℕ) :
    (strat (data.take (50 + k + 1)) = Sig.BUY →
      (simUpTo e n s strat data k).position = 0 →
      0 < pyInt ((simUpTo e n s strat data k).capital * (95 / 100) /
        ((data[50 + k]?).getD default).close) →
      (stepBar e n s strat data (50 + k) (simUpTo e n s strat data k)).capital =
          (simUpTo e n s strat data k).capital -
            (pyInt ((simUpTo e n s strat data k).capital * (95 / 100) /
              ((data[50 + k]?).getD default).close) : ℚ) *
              ((data[50 + k]?).getD default).close * (1 + e.comm) ∧
        (stepBar e n s strat data (50 + k) (simUpTo e n s strat data k)).equity.getLast? =
          some ((simUpTo e n s strat data k).capital -
            (pyInt ((simUpTo e n s strat data k).capital * (95 / 100) /
              ((data[50 + k]?).getD default).close) : ℚ) *
              ((data[50 + k]?).getD default).close * (1 + e.comm)) ∧
        ((simUpTo e n s strat data k).equity ≠ [] →
          (simUpTo e n s strat data k).equity.getLast? =
            some (simUpTo e n s strat data k).capital)) ∧
    (∀ t rest, strat (data.take (50 + k + 1)) = Sig.SELL →
      (simUpTo e n s strat data k).position = 1 →
      (simUpTo e n s strat data k).trades = t :: rest →
      t.tradeType = Sig.BUY →
      (stepBar e n s strat data (50 + k) (simUpTo e n s strat data k)).capital =
        (simUpTo e n s strat data k).capital +
          ((((data[50 + k]?).getD default).close - t.entryPrice) * (t.quantity : ℚ) -
            (t.entryPrice + ((data[50 + k]?).getD default).close) * (t.quantity : ℚ) *
              e.comm)) := by
  constructor
  · intro hsig hpos hqty
    have hopen := transition_buy_open e n s ((data[50 + k]?).getD default).close
      ((data[50 + k]?).getD default).ts (simUpTo e n s strat data k) hpos hqty
    refine ⟨?_, ?_, fun hne => (inv_simUpTo e n s strat data k).2.2 hpos hne⟩
    · rw [stepBar_capital, hsig, hopen]
    · rw [stepBar_equity, getLast?_append_singleton, hsig, hopen]
      simp [barEquity, sub_self]
  · intro t rest hsig hpos htr hty
    rw [stepBar_capital, hsig]
    exact transition_sell_close e n s _ _ _ t rest hpos htr hty

theorem claim10_witness :
    ((stepBar engineDflt "s" "A" buyAt52 (risingBars 52) 51
          (simUpTo engineDflt "s" "A" buyAt52 (risingBars 52) 1)).capital =
        (simUpTo engineDflt "s" "A" buyAt52 (risingBars 52) 1).capital -
          (pyInt ((simUpTo engineDflt "s" "A" buyAt52 (risingBars 52) 1).capital *
            (95 / 100) / (((risingBars 52)[51]?).getD default).close) : ℚ) *
            (((risingBars 52)[51]?).getD default).close * (1 + engineDflt.comm)) ∧
      ((stepBar engineDflt "s" "A" buyThenSell (risingBars 52) 51
          (simUpTo engineDflt "s" "A" buyThenSell (risingBars 52) 1)).capital =
        (simUpTo engineDflt "s" "A" buyThenSell (risingBars 52) 1).capital +
          (((((risingBars 52)[51]?).getD default).close - tradeOpened.entryPrice) *
              (tradeOpened.quantity : ℚ) -
            (tradeOpened.entryPrice + (((risingBars 52)[51]?).getD default).close) *
              (tradeOpened.quantity : ℚ) * engineDflt.comm)) :=
  ⟨((claim10_accounting engineDflt "s" "A" buyAt52 (risingBars 52) 1).1
      (by decide) (by decide) (by decide)).1,
   (claim10_accounting engineDflt "s" "A" buyThenSell (risingBars 52) 1).2
      tradeOpened [] (by decide) (by decide) (by decide) rfl⟩

end StockBacktest

